import Mathlib

/-!
Shallow embedding of `sch_sweet_parser.cpp` (KiCad SWEET schematic part
parser).  The token stream (DSNLEXER), library table and PART storage are
external collaborators of this translation unit; they are modelled from the
spec at the interface described in spec §6, while every function of the
source file itself (`log2int`, `internal`, `SWEET_PARSER::parseExtends`,
`SWEET_PARSER::Parse`, `parseFont`, `parseBool`, `parsePinText`, `parsePin`,
`parseTextEffects`, `parsePolyLine`, `parseBezier`, `parseRectangle`,
`parseCircle`, `parseArc`, `parseAt`, `parseText`) is translated directly
from the C++.
-/

/-- `MAX_INHERITANCE_NESTING`: max depth of inheritance. -/
def MAX_INHERITANCE_NESTING : Nat := 6

/-- `INTERNAL_PER_LOGICAL`: number of internal units per logical unit. -/
def INTERNAL_PER_LOGICAL : Int := 10000

/-- Read a run of decimal digits: accumulated value, digit count, rest. -/
def readDigits : List Char → Nat → Nat × Nat × List Char
  | c :: cs, acc =>
    if c.isDigit then
      let r := readDigits cs (acc * 10 + (c.toNat - 48))
      (r.1, r.2.1 + 1, r.2.2)
    else (acc, 0, c :: cs)
  | [], acc => (acc, 0, [])

/-- Modelled from the spec: the C library `strtod` applied to the decimal
numerals admitted by the token stream's numeric-token contract (optional
sign, integer digits `ip`, optional fractional digits `fp` of count `fc`).
The value `±(ip + fp / 10^fc)` is kept as the exact rational
`±((ip·10^fc + fp) / 10^fc)`; trailing non-numeric characters are ignored
and an empty numeral yields 0, as `strtod` does. -/
def strtodQ (s : String) : ℚ :=
  let cs := s.data
  let sgn :=
    match cs with
    | '-' :: t => (true, t)
    | '+' :: t => (false, t)
    | _ => (false, cs)
  let ipr := readDigits sgn.2 0
  let fpr :=
    match ipr.2.2 with
    | '.' :: t =>
      let r := readDigits t 0
      (r.1, r.2.1)
    | _ => (0, 0)
  let mag : ℚ := Rat.divInt ((ipr.1 : Int) * 10 ^ fpr.2 + (fpr.1 : Int)) (10 ^ fpr.2)
  if sgn.1 then -mag else mag

/-- C truncation toward zero of a rational, i.e. the `int( double )` cast:
`Int.tdiv` is truncating division. -/
def ratTrunc (q : ℚ) : Int := Int.tdiv q.num (q.den : Int)

/-- `log2int`: converts a logical coordinate to an internal coordinate,
`int( aCoord * INTERNAL_PER_LOGICAL )`: the exact product
`aCoord * 10000` is the rational `(aCoord.num * 10000) / aCoord.den`, and
the `int` cast truncates it toward zero.  The agreement with
`ratTrunc (aCoord * (INTERNAL_PER_LOGICAL : ℚ))` is proved below. -/
def log2int (aCoord : ℚ) : Int :=
  Int.tdiv (aCoord.num * INTERNAL_PER_LOGICAL) (aCoord.den : Int)

/-- `internal`: `log2int( strtod( aCoord.c_str(), NULL ) )`. -/
def internal (aCoord : String) : Int := log2int (strtodQ aCoord)

/-- Enum `PartBit`: bit positions for `PART::contains`. -/
inductive PartBit
  | PARSED | EXTENDS | VALUE | ANCHOR | REFERENCE
  | FOOTPRINT | DATASHEET | MODEL | KEYWORDS
deriving DecidableEq

/-- Position of each `PartBit`, in the source's declaration order. -/
def PartBit.idx : PartBit → Nat
  | .PARSED => 0
  | .EXTENDS => 1
  | .VALUE => 2
  | .ANCHOR => 3
  | .REFERENCE => 4
  | .FOOTPRINT => 5
  | .DATASHEET => 6
  | .MODEL => 7
  | .KEYWORDS => 8

/-- `PB`: PartBit shifter, `1 << oneBitOnly`. -/
def PB (b : PartBit) : Nat := 1 <<< b.idx

/-- Keyword tokens of the SWEET grammar used by this translation unit
(`T_xxx` values of the generated keyword enum). -/
inductive Kw
  | T_part | T_extends | T_anchor
  | T_line | T_polyline | T_rectangle | T_circle | T_arc | T_bezier | T_text
  | T_reference | T_value | T_footprint | T_datasheet | T_model
  | T_property | T_pin | T_effects
  | T_at | T_length | T_signal | T_padname | T_visible
  | T_font | T_size | T_bold | T_italic | T_yes | T_no
  | T_pts | T_xy | T_line_width | T_fill
  | T_none | T_filled | T_transparent
  | T_start | T_end | T_center | T_radius | T_pos
  | T_justify | T_right | T_left | T_top | T_bottom
  | T_input | T_output | T_bidirectional | T_tristate | T_passive
  | T_unspecified | T_power_in | T_power_out | T_open_collector
  | T_open_emitter | T_unconnected
  | T_inverted | T_clock | T_inverted_clk | T_input_low | T_clock_low
  | T_falling_edge | T_non_logic
  | T_keywords | T_alternates | T_property_del
  | T_pin_merge | T_pin_swap | T_pin_renum | T_pin_rename | T_route_pin_swap
deriving DecidableEq

/-- Spelling of each keyword (`CurText()` / diagnostic text of a keyword
token). -/
def Kw.str : Kw → String
  | .T_part => "part"
  | .T_extends => "extends"
  | .T_anchor => "anchor"
  | .T_line => "line"
  | .T_polyline => "polyline"
  | .T_rectangle => "rectangle"
  | .T_circle => "circle"
  | .T_arc => "arc"
  | .T_bezier => "bezier"
  | .T_text => "text"
  | .T_reference => "reference"
  | .T_value => "value"
  | .T_footprint => "footprint"
  | .T_datasheet => "datasheet"
  | .T_model => "model"
  | .T_property => "property"
  | .T_pin => "pin"
  | .T_effects => "effects"
  | .T_at => "at"
  | .T_length => "length"
  | .T_signal => "signal"
  | .T_padname => "padname"
  | .T_visible => "visible"
  | .T_font => "font"
  | .T_size => "size"
  | .T_bold => "bold"
  | .T_italic => "italic"
  | .T_yes => "yes"
  | .T_no => "no"
  | .T_pts => "pts"
  | .T_xy => "xy"
  | .T_line_width => "line_width"
  | .T_fill => "fill"
  | .T_none => "none"
  | .T_filled => "filled"
  | .T_transparent => "transparent"
  | .T_start => "start"
  | .T_end => "end"
  | .T_center => "center"
  | .T_radius => "radius"
  | .T_pos => "pos"
  | .T_justify => "justify"
  | .T_right => "right"
  | .T_left => "left"
  | .T_top => "top"
  | .T_bottom => "bottom"
  | .T_input => "input"
  | .T_output => "output"
  | .T_bidirectional => "bidirectional"
  | .T_tristate => "tristate"
  | .T_passive => "passive"
  | .T_unspecified => "unspecified"
  | .T_power_in => "power_in"
  | .T_power_out => "power_out"
  | .T_open_collector => "open_collector"
  | .T_open_emitter => "open_emitter"
  | .T_unconnected => "unconnected"
  | .T_inverted => "inverted"
  | .T_clock => "clock"
  | .T_inverted_clk => "inverted_clk"
  | .T_input_low => "input_low"
  | .T_clock_low => "clock_low"
  | .T_falling_edge => "falling_edge"
  | .T_non_logic => "non_logic"
  | .T_keywords => "keywords"
  | .T_alternates => "alternates"
  | .T_property_del => "property_del"
  | .T_pin_merge => "pin_merge"
  | .T_pin_swap => "pin_swap"
  | .T_pin_renum => "pin_renum"
  | .T_pin_rename => "pin_rename"
  | .T_route_pin_swap => "route_pin_swap"

/-- Modelled from the spec: the DSNLEXER token stream's typed tokens —
punctuation (left/right delimiter, end of input), grammar keywords, and
symbol / number tokens carrying their text. -/
inductive Tok
  | T_LEFT
  | T_RIGHT
  | T_EOF
  | kw (k : Kw)
  | sym (s : String)
  | num (s : String)
deriving DecidableEq

/-- `CurText()` / `FromUTF8()` of the current token. -/
def Tok.text : Tok → String
  | .T_LEFT => "("
  | .T_RIGHT => ")"
  | .T_EOF => "EOF"
  | .kw k => k.str
  | .sym s => s
  | .num s => s

/-- Modelled from the spec: `DSNLEXER::IsSymbol` — keyword tokens and symbol
tokens both count as symbols. -/
def Tok.isSymbol : Tok → Bool
  | .kw _ => true
  | .sym _ => true
  | _ => false

/-- Fail-fast parse errors of §7: grammar errors (`Expecting`/`Unexpected`),
duplicate-clause errors (`Duplicate`), `THROW_PARSE_ERROR` diagnostics,
library-table lookup failure, and exhaustion of the loop fuel of this
embedding (never reached on the runs the theorems below speak about). -/
inductive PErr
  | expecting (what : String)
  | unexpected (what : String)
  | duplicate (what : String)
  | parseErr (msg : String)
  | lookupFailed
  | outOfFuel
deriving DecidableEq

deriving instance DecidableEq for Except

/-- `NextTok()`: at end of input the lexer reports `T_EOF`. -/
def nextTok : List Tok → Tok × List Tok
  | [] => (.T_EOF, [])
  | t :: ts => (t, ts)

/-- `NeedNUMBER( aLabel )`: require a number token, return its text. -/
def needNUMBER (label : String) (ts : List Tok) : Except PErr (String × List Tok) :=
  match nextTok ts with
  | (.num s, ts) => .ok (s, ts)
  | _ => .error (.expecting label)

/-- `NeedSYMBOLorNUMBER()`: require a symbol or number token. -/
def needSYMBOLorNUMBER (ts : List Tok) : Except PErr (Tok × List Tok) :=
  let r := nextTok ts
  if r.1.isSymbol || (match r.1 with | .num _ => true | _ => false) then .ok (r.1, r.2)
  else .error (.expecting "a symbol or number")

/-- `NeedSYMBOL()`: require a symbol token (keywords included). -/
def needSYMBOL (ts : List Tok) : Except PErr (Tok × List Tok) :=
  let r := nextTok ts
  if r.1.isSymbol then .ok (r.1, r.2)
  else .error (.expecting "a symbol")

/-- `NeedLEFT()`. -/
def needLEFT (ts : List Tok) : Except PErr (List Tok) :=
  match nextTok ts with
  | (.T_LEFT, ts) => .ok ts
  | _ => .error (.expecting "(")

/-- `NeedRIGHT()`. -/
def needRIGHT (ts : List Tok) : Except PErr (List Tok) :=
  match nextTok ts with
  | (.T_RIGHT, ts) => .ok ts
  | _ => .error (.expecting ")")

/-- Outcome of the ancestor-chain walk in `parseExtends`. -/
inductive ExtChk
  | selfRef
  | depthExceeded
  | ok
deriving DecidableEq

/-- The bounded ancestor walk of `parseExtends` (lines 108-129):
`for( ancestor = base; ancestor && extendsDepth < MAX_INHERITANCE_NESTING;
++extendsDepth, ancestor = ancestor->base )` with the in-loop
`ancestor == me` check and the post-loop `extendsDepth ==
MAX_INHERITANCE_NESTING` check.  `fuel` is the remaining depth budget
`MAX_INHERITANCE_NESTING - extendsDepth`. -/
def extendsWalk (baseOf : Nat → Option Nat) (me : Nat) : Nat → Option Nat → ExtChk
  | 0, _ => .depthExceeded
  | _ + 1, none => .ok
  | fuel + 1, some a =>
    if a = me then .selfRef else extendsWalk baseOf me fuel (baseOf a)

/-- The complete cycle/depth check of `parseExtends`, starting at the
resolved base with depth 0. -/
def checkExtends (baseOf : Nat → Option Nat) (me b : Nat) : ExtChk :=
  extendsWalk baseOf me MAX_INHERITANCE_NESTING (some b)

/-- The first `k` entries of the `base` back-reference chain starting at a
given part (the chain the walk above traverses). -/
def chainList (baseOf : Nat → Option Nat) : Nat → Option Nat → List Nat
  | 0, _ => []
  | _ + 1, none => []
  | k + 1, some a => a :: chainList baseOf k (baseOf a)

/-- `POINT`: a pair of internal (fixed-point integer) coordinates. -/
structure POINT where
  x : Int := 0
  y : Int := 0
deriving DecidableEq

/-- Modelled from the spec: `FONT` of `sch_part.h` — optional name,
height/width size, bold/italic flags, default-constructed empty. -/
structure FONT where
  name : String := ""
  height : Int := 0
  width : Int := 0
  bold : Bool := false
  italic : Bool := false
deriving DecidableEq

/-- Modelled from the spec: `TEXT_EFFECTS` of `sch_part.h` — optional
property-name tag, position+angle, font, visibility. -/
structure TEXT_EFFECTS where
  propName : String := ""
  pos : POINT := {}
  angle : ℚ := 0
  font : FONT := {}
  isVisible : Bool := true
deriving DecidableEq

/-- Modelled from the spec: a named text field of `PART` (reference, value,
footprint, datasheet, model): text plus an optional effects sub-record. -/
structure TEXT_FIELD where
  text : String := ""
  effects : TEXT_EFFECTS := {}
deriving DecidableEq

/-- Modelled from the spec: `PINTEXT` of `sch_part.h` — the signal/padname
text-with-font sub-record of a pin. -/
structure PINTEXT where
  text : String := ""
  font : FONT := {}
  isVisible : Bool := true
deriving DecidableEq

/-- Modelled from the spec: `PIN` of `sch_part.h`.  `connectionType` and
`shape` are `none` until the corresponding bare flag token is seen. -/
structure PIN where
  pos : POINT := {}
  angle : ℚ := 0
  length : Int := 0
  signal : PINTEXT := {}
  padname : PINTEXT := {}
  isVisible : Bool := true
  connectionType : Option Kw := none
  shape : Option Kw := none
deriving DecidableEq

/-- Modelled from the spec: `POLY_LINE` of `sch_part.h` (also the base of
`BEZIER`).  `lineWidth` is stored as the unscaled decimal (spec §6). -/
structure POLY_LINE where
  lineWidth : ℚ := 0
  fillType : Kw := .T_none
  pts : List POINT := []
deriving DecidableEq

/-- Modelled from the spec: `RECTANGLE` of `sch_part.h`. -/
structure RECTANGLE where
  lineWidth : ℚ := 0
  fillType : Kw := .T_none
  start : POINT := {}
  theEnd : POINT := {}
deriving DecidableEq

/-- Modelled from the spec: `CIRCLE` of `sch_part.h`. -/
structure CIRCLE where
  lineWidth : ℚ := 0
  fillType : Kw := .T_none
  center : POINT := {}
  radius : Int := 0
deriving DecidableEq

/-- Modelled from the spec: `ARC` of `sch_part.h`. -/
structure ARC where
  lineWidth : ℚ := 0
  fillType : Kw := .T_none
  pos : POINT := {}
  radius : Int := 0
  start : POINT := {}
  theEnd : POINT := {}
deriving DecidableEq

/-- Modelled from the spec: `GR_TEXT` of `sch_part.h`. -/
structure GR_TEXT where
  text : String := ""
  pos : POINT := {}
  angle : ℚ := 0
  fillType : Kw := .T_none
  hjustify : Kw := .T_left
  vjustify : Kw := .T_bottom
  isVisible : Bool := true
  font : FONT := {}
deriving DecidableEq

/-- Modelled from the spec: `PROPERTY` of `sch_part.h` — a name/value pair
with optional effects. -/
structure PROPERTY where
  name : String := ""
  text : String := ""
  effects : TEXT_EFFECTS := {}
deriving DecidableEq

/-- The closed set of graphic-node variants appended to `PART::graphics`
(spec §3): `BEZIER` is a `POLY_LINE` subclass sharing its grammar. -/
inductive GRAPHIC
  | polyLine (p : POLY_LINE)
  | bezier (p : POLY_LINE)
  | rectangle (r : RECTANGLE)
  | circle (c : CIRCLE)
  | arc (a : ARC)
  | text (t : GR_TEXT)
deriving DecidableEq

/-- Modelled from the spec: `PART` of `sch_part.h`.  Library parts are
identified by numeric ids (pointer identity); `base` is the non-owning
back-reference set by `parseExtends`. -/
structure PART where
  anchor : POINT := {}
  reference : TEXT_FIELD := {}
  value : TEXT_FIELD := {}
  footprint : TEXT_FIELD := {}
  datasheet : TEXT_FIELD := {}
  model : TEXT_FIELD := {}
  properties : List PROPERTY := []
  graphics : List GRAPHIC := []
  pins : List PIN := []
  contains : Nat := 0
  extendsLpid : Option String := none
  base : Option Nat := none
deriving DecidableEq

/-- Modelled from the spec: `PART::clear` — "Parse clears all fields
unconditionally before repopulating" (spec §3); every field returns to its
default-constructed state. -/
def PART.clear (_ : PART) : PART := {}

/-- Modelled from the spec: `PART::inherit` — "copy the base's fields into
the part under construction" (spec §4.2).  The clauses-seen state, the
extends identifier and the back-reference are not content fields. -/
def PART.inherit (b me : PART) : PART :=
  { me with
    anchor := b.anchor
    reference := b.reference
    value := b.value
    footprint := b.footprint
    datasheet := b.datasheet
    model := b.model
    properties := b.properties
    graphics := b.graphics
    pins := b.pins }

/-- Modelled from the spec: the external collaborators of §6 — the LPID
parser (`LPID::Parse`, returning -1 on success or a character offset on
failure), the library table (`LIB_TABLE::LookupPart`) and the storage of
previously-parsed parts with their `base` back-references. -/
structure Env where
  lpidParse : String → Int := fun _ => -1
  lookupPart : String → Option Nat := fun _ => none
  baseOf : Nat → Option Nat := fun _ => none
  partData : Nat → PART := fun _ => {}

/-- `SWEET_PARSER::parseBool`: requires exactly `yes` or `no`. -/
def parseBool (ts : List Tok) : Except PErr (Bool × List Tok) := do
  let (tok, ts) ← needSYMBOL ts
  match tok with
  | .kw .T_yes => .ok (true, ts)
  | .kw .T_no => .ok (false, ts)
  | _ => .error (.expecting "yes|no")

/-- `SWEET_PARSER::parseAt`: two numbers, an optional trailing angle
number, then the closing delimiter.  Returns the position and the angle
when one was present (the caller's field is left untouched otherwise). -/
def parseAt (ts : List Tok) : Except PErr ((POINT × Option ℚ) × List Tok) := do
  let (sx, ts) ← needNUMBER "at x" ts
  let (sy, ts) ← needNUMBER "at y" ts
  let pos : POINT := { x := internal sx, y := internal sy }
  match nextTok ts with
  | (.num s, ts2) =>
    match nextTok ts2 with
    | (.T_RIGHT, ts3) => .ok ((pos, some (strtodQ s)), ts3)
    | _ => .error (.expecting ")")
  | (.T_RIGHT, ts2) => .ok ((pos, none), ts2)
  | _ => .error (.expecting ")")

/-- The `while( tok != T_RIGHT )` loop of `parseFont`. -/
def fontLoop : Nat → Bool → Bool → Bool → FONT → Tok → List Tok →
    Except PErr (FONT × List Tok)
  | 0, _, _, _, _, _, _ => .error .outOfFuel
  | fuel + 1, sawBold, sawItalic, sawSize, me, tok, ts =>
    if tok = .T_RIGHT then .ok (me, ts)
    else if tok = .T_LEFT then
      match nextTok ts with
      | (.kw .T_size, ts) =>
        if sawSize then .error (.duplicate "size")
        else do
          let (sh, ts) ← needNUMBER "size height" ts
          let (sw, ts) ← needNUMBER "size width" ts
          let ts ← needRIGHT ts
          let me := { me with height := internal sh, width := internal sw }
          let (ntok, nts) := nextTok ts
          fontLoop fuel sawBold sawItalic true me ntok nts
      | _ => .error (.expecting "size")
    else
      match tok with
      | .kw .T_bold =>
        if sawBold then .error (.duplicate "bold")
        else
          let (ntok, nts) := nextTok ts
          fontLoop fuel true sawItalic sawSize { me with bold := true } ntok nts
      | .kw .T_italic =>
        if sawItalic then .error (.duplicate "italic")
        else
          let (ntok, nts) := nextTok ts
          fontLoop fuel sawBold true sawSize { me with italic := true } ntok nts
      | _ => .error (.unexpected "bold|italic")

/-- `SWEET_PARSER::parseFont`: an optional leading name token (position
dependent), then size/bold/italic groups, each settable once. -/
def parseFont (fuel : Nat) (me : FONT) (ts : List Tok) :
    Except PErr (FONT × List Tok) :=
  let (tok, ts) := nextTok ts
  if tok.isSymbol then
    let (ntok, nts) := nextTok ts
    fontLoop fuel false false false { me with name := tok.text } ntok nts
  else
    fontLoop fuel false false false me tok ts

/-- The `while( ( tok = NextTok() ) != T_RIGHT )` loop of `parsePinText`. -/
def pinTextLoop : Nat → Bool → Bool → PINTEXT → List Tok →
    Except PErr (PINTEXT × List Tok)
  | 0, _, _, _, _ => .error .outOfFuel
  | fuel + 1, sawFont, sawVis, me, ts =>
    match nextTok ts with
    | (.T_RIGHT, ts) => .ok (me, ts)
    | (.T_LEFT, ts) =>
      match nextTok ts with
      | (.kw .T_font, ts) =>
        if sawFont then .error (.duplicate "font")
        else do
          let (f, ts) ← parseFont fuel me.font ts
          pinTextLoop fuel true sawVis { me with font := f } ts
      | (.kw .T_visible, ts) =>
        if sawVis then .error (.duplicate "visible")
        else do
          let (b, ts) ← parseBool ts
          let ts ← needRIGHT ts
          pinTextLoop fuel sawFont true { me with isVisible := b } ts
      | _ => .error (.expecting "font")
    | _ => .error (.expecting "(")

/-- `SWEET_PARSER::parsePinText`: the `(signal ...)` / `(padname ...)`
sub-grammar — a text token then font/visible groups. -/
def parsePinText (fuel : Nat) (me : PINTEXT) (ts : List Tok) :
    Except PErr (PINTEXT × List Tok) := do
  let (t, ts) ← needSYMBOLorNUMBER ts
  pinTextLoop fuel false false { me with text := t.text } ts

/-- The `while( tok != T_RIGHT )` loop of `parseTextEffects`.  In the
`T_visible` branch the source calls `Duplicate( sawVis )`, passing the
boolean flag where a token is expected (spec §9 open question); the
diagnostic therefore names the flag value, not the keyword. -/
def teLoop : Nat → Bool → Bool → Bool → TEXT_EFFECTS → Tok → List Tok →
    Except PErr (TEXT_EFFECTS × List Tok)
  | 0, _, _, _, _, _, _ => .error .outOfFuel
  | fuel + 1, sawFont, sawAt, sawVis, me, tok, ts =>
    if tok = .T_RIGHT then .ok (me, ts)
    else if tok ≠ .T_LEFT then .error (.expecting "(")
    else
      match nextTok ts with
      | (.kw .T_at, ts) =>
        if sawAt then .error (.duplicate "at")
        else do
          let (pa, ts) ← parseAt ts
          let me := { me with pos := pa.1, angle := pa.2.getD me.angle }
          let (ntok, nts) := nextTok ts
          teLoop fuel sawFont true sawVis me ntok nts
      | (.kw .T_font, ts) =>
        if sawFont then .error (.duplicate "font")
        else do
          let (f, ts) ← parseFont fuel me.font ts
          let (ntok, nts) := nextTok ts
          teLoop fuel true sawAt sawVis { me with font := f } ntok nts
      | (.kw .T_visible, ts) =>
        if sawVis then .error (.duplicate "true")
        else do
          let (b, ts) ← parseBool ts
          let ts ← needRIGHT ts
          let (ntok, nts) := nextTok ts
          teLoop fuel sawFont sawAt true { me with isVisible := b } ntok nts
      | _ => .error (.expecting "at|font|visible")

/-- `SWEET_PARSER::parseTextEffects`: optional leading property-name
symbol, then at/font/visible parenthesized groups, each settable once. -/
def parseTextEffects (fuel : Nat) (me : TEXT_EFFECTS) (ts : List Tok) :
    Except PErr (TEXT_EFFECTS × List Tok) :=
  let (tok, ts) := nextTok ts
  if tok.isSymbol then
    let (ntok, nts) := nextTok ts
    teLoop fuel false false false { me with propName := tok.text } ntok nts
  else
    teLoop fuel false false false me tok ts

/-- The fixed eleven-value electrical-type enumeration of `parsePin`'s bare
tokens (cases `T_input` .. `T_unconnected`). -/
def elecTypes : List Kw :=
  [.T_input, .T_output, .T_bidirectional, .T_tristate, .T_passive,
   .T_unspecified, .T_power_in, .T_power_out, .T_open_collector,
   .T_open_emitter, .T_unconnected]

/-- The fixed nine-value shape enumeration of `parsePin`'s bare tokens
(cases `T_none` .. `T_non_logic`). -/
def pinShapes : List Kw :=
  [.T_none, .T_line, .T_inverted, .T_clock, .T_inverted_clk,
   .T_input_low, .T_clock_low, .T_falling_edge, .T_non_logic]

/-- The clauses-seen flags local to one `parsePin` invocation. -/
structure PINSAW where
  sawShape : Bool := false
  sawType : Bool := false
  sawAt : Bool := false
  sawLen : Bool := false
  sawSignal : Bool := false
  sawPadName : Bool := false
  sawVis : Bool := false

/-- The `while( ( tok = NextTok() ) != T_RIGHT )` loop of `parsePin`:
parenthesized at/length/signal/padname/visible clauses interleaved with
bare electrical-type and shape flag tokens. -/
def pinLoop : Nat → PINSAW → PIN → List Tok → Except PErr (PIN × List Tok)
  | 0, _, _, _ => .error .outOfFuel
  | fuel + 1, sw, me, ts =>
    match nextTok ts with
    | (.T_RIGHT, ts) => .ok (me, ts)
    | (.T_LEFT, ts) =>
      match nextTok ts with
      | (.kw .T_at, ts) =>
        if sw.sawAt then .error (.duplicate "at")
        else do
          let (pa, ts) ← parseAt ts
          let me := { me with pos := pa.1, angle := pa.2.getD me.angle }
          pinLoop fuel { sw with sawAt := true } me ts
      | (.kw .T_length, ts) =>
        if sw.sawLen then .error (.duplicate "length")
        else do
          let (s, ts) ← needNUMBER "length" ts
          let ts ← needRIGHT ts
          pinLoop fuel { sw with sawLen := true } { me with length := internal s } ts
      | (.kw .T_signal, ts) =>
        if sw.sawSignal then .error (.duplicate "signal")
        else do
          let (pt, ts) ← parsePinText fuel me.signal ts
          pinLoop fuel { sw with sawSignal := true } { me with signal := pt } ts
      | (.kw .T_padname, ts) =>
        if sw.sawPadName then .error (.duplicate "padname")
        else do
          let (pt, ts) ← parsePinText fuel me.padname ts
          pinLoop fuel { sw with sawPadName := true } { me with padname := pt } ts
      | (.kw .T_visible, ts) =>
        if sw.sawVis then .error (.duplicate "visible")
        else do
          let (b, ts) ← parseBool ts
          let ts ← needRIGHT ts
          pinLoop fuel { sw with sawVis := true } { me with isVisible := b } ts
      | (tok, _) => .error (.unexpected tok.text)
    | (.kw k, ts) =>
      if k ∈ elecTypes then
        if sw.sawType then .error (.duplicate k.str)
        else pinLoop fuel { sw with sawType := true } { me with connectionType := some k } ts
      else if k ∈ pinShapes then
        if sw.sawShape then .error (.duplicate k.str)
        else pinLoop fuel { sw with sawShape := true } { me with shape := some k } ts
      else .error (.unexpected k.str)
    | (tok, _) => .error (.unexpected tok.text)

/-- `SWEET_PARSER::parsePin`. -/
def parsePin (fuel : Nat) (me : PIN) (ts : List Tok) :
    Except PErr (PIN × List Tok) :=
  pinLoop fuel {} me ts

/-- The shared `(fill FILL_TYPE)` tail: `NeedSYMBOL`, the closed
`none|filled|transparent` enumeration, then `NeedRIGHT`. -/
def parseFill (ts : List Tok) : Except PErr (Kw × List Tok) := do
  let (tok, ts) ← needSYMBOL ts
  match tok with
  | .kw .T_none => do
    let ts ← needRIGHT ts
    .ok (.T_none, ts)
  | .kw .T_filled => do
    let ts ← needRIGHT ts
    .ok (.T_filled, ts)
  | .kw .T_transparent => do
    let ts ← needRIGHT ts
    .ok (.T_transparent, ts)
  | _ => .error (.expecting "none|filled|transparent")

/-- The inner `(xy X Y)` loop of `parsePolyLine`'s `T_pts` case:
`for( ; ( tok = NextTok() ) != T_RIGHT; ++count )`.  Returns the extended
point list, the updated count, and the rest of the stream. -/
def parseXYs : Nat → List POINT → Nat → List Tok →
    Except PErr (List POINT × Nat × List Tok)
  | 0, _, _, _ => .error .outOfFuel
  | fuel + 1, pts, count, ts =>
    match nextTok ts with
    | (.T_RIGHT, ts) => .ok (pts, count, ts)
    | (.T_LEFT, ts) => do
      let (tok, ts) ← needSYMBOL ts
      if tok ≠ Tok.kw .T_xy then .error (.expecting "xy")
      else do
        let (sx, ts) ← needNUMBER "x" ts
        let (sy, ts) ← needNUMBER "y" ts
        let ts ← needRIGHT ts
        parseXYs fuel (pts ++ [{ x := internal sx, y := internal sy }]) (count + 1) ts
    | _ => .error (.expecting "(")

/-- The `while( ( tok = NextTok() ) != T_RIGHT )` loop of
`parsePolyLine`: pts / line_width / fill groups; `count` persists across
iterations, so a second `pts` group is a duplicate, and fewer than 2
points is a grammar error naming ">= 2 pts". -/
def polyLoop : Nat → Bool → Bool → Nat → POLY_LINE → List Tok →
    Except PErr (POLY_LINE × List Tok)
  | 0, _, _, _, _, _ => .error .outOfFuel
  | fuel + 1, sawWidth, sawFill, count, me, ts =>
    match nextTok ts with
    | (.T_RIGHT, ts) => .ok (me, ts)
    | (.T_LEFT, ts) =>
      match nextTok ts with
      | (.kw .T_line_width, ts) =>
        if sawWidth then .error (.duplicate "line_width")
        else do
          let (s, ts) ← needNUMBER "line_width" ts
          let ts ← needRIGHT ts
          polyLoop fuel true sawFill count { me with lineWidth := strtodQ s } ts
      | (.kw .T_pts, ts) =>
        if count ≠ 0 then .error (.duplicate "pts")
        else do
          let (pts, count, ts) ← parseXYs fuel me.pts count ts
          if count < 2 then .error (.expecting ">= 2 pts")
          else polyLoop fuel sawWidth sawFill count { me with pts := pts } ts
      | (.kw .T_fill, ts) =>
        if sawFill then .error (.duplicate "fill")
        else do
          let (f, ts) ← parseFill ts
          polyLoop fuel sawWidth true count { me with fillType := f } ts
      | _ => .error (.expecting "pts|line_width|fill")
    | _ => .error (.expecting "(")

/-- `SWEET_PARSER::parsePolyLine`. -/
def parsePolyLine (fuel : Nat) (me : POLY_LINE) (ts : List Tok) :
    Except PErr (POLY_LINE × List Tok) :=
  polyLoop fuel false false 0 me ts

/-- `SWEET_PARSER::parseBezier`: delegates to `parsePolyLine`. -/
def parseBezier (fuel : Nat) (me : POLY_LINE) (ts : List Tok) :
    Except PErr (POLY_LINE × List Tok) :=
  parsePolyLine fuel me ts

/-- The clause loop of `SWEET_PARSER::parseRectangle`:
start / end / line_width / fill. -/
def rectLoop : Nat → Bool → Bool → Bool → Bool → RECTANGLE → List Tok →
    Except PErr (RECTANGLE × List Tok)
  | 0, _, _, _, _, _, _ => .error .outOfFuel
  | fuel + 1, sawStart, sawEnd, sawWidth, sawFill, me, ts =>
    match nextTok ts with
    | (.T_RIGHT, ts) => .ok (me, ts)
    | (.T_LEFT, ts) =>
      match nextTok ts with
      | (.kw .T_line_width, ts) =>
        if sawWidth then .error (.duplicate "line_width")
        else do
          let (s, ts) ← needNUMBER "line_width" ts
          let ts ← needRIGHT ts
          rectLoop fuel sawStart sawEnd true sawFill { me with lineWidth := strtodQ s } ts
      | (.kw .T_fill, ts) =>
        if sawFill then .error (.duplicate "fill")
        else do
          let (f, ts) ← parseFill ts
          rectLoop fuel sawStart sawEnd sawWidth true { me with fillType := f } ts
      | (.kw .T_start, ts) =>
        if sawStart then .error (.duplicate "start")
        else do
          let (sx, ts) ← needNUMBER "x" ts
          let (sy, ts) ← needNUMBER "y" ts
          let ts ← needRIGHT ts
          rectLoop fuel true sawEnd sawWidth sawFill
            { me with start := { x := internal sx, y := internal sy } } ts
      | (.kw .T_end, ts) =>
        if sawEnd then .error (.duplicate "end")
        else do
          let (sx, ts) ← needNUMBER "x" ts
          let (sy, ts) ← needNUMBER "y" ts
          let ts ← needRIGHT ts
          rectLoop fuel sawStart true sawWidth sawFill
            { me with theEnd := { x := internal sx, y := internal sy } } ts
      | _ => .error (.expecting "start|end|line_width|fill")
    | _ => .error (.expecting "(")

/-- `SWEET_PARSER::parseRectangle`. -/
def parseRectangle (fuel : Nat) (me : RECTANGLE) (ts : List Tok) :
    Except PErr (RECTANGLE × List Tok) :=
  rectLoop fuel false false false false me ts

/-- The clause loop of `SWEET_PARSER::parseCircle`:
center / radius / line_width / fill. -/
def circleLoop : Nat → Bool → Bool → Bool → Bool → CIRCLE → List Tok →
    Except PErr (CIRCLE × List Tok)
  | 0, _, _, _, _, _, _ => .error .outOfFuel
  | fuel + 1, sawCenter, sawRadius, sawWidth, sawFill, me, ts =>
    match nextTok ts with
    | (.T_RIGHT, ts) => .ok (me, ts)
    | (.T_LEFT, ts) =>
      match nextTok ts with
      | (.kw .T_line_width, ts) =>
        if sawWidth then .error (.duplicate "line_width")
        else do
          let (s, ts) ← needNUMBER "line_width" ts
          let ts ← needRIGHT ts
          circleLoop fuel sawCenter sawRadius true sawFill { me with lineWidth := strtodQ s } ts
      | (.kw .T_fill, ts) =>
        if sawFill then .error (.duplicate "fill")
        else do
          let (f, ts) ← parseFill ts
          circleLoop fuel sawCenter sawRadius sawWidth true { me with fillType := f } ts
      | (.kw .T_center, ts) =>
        if sawCenter then .error (.duplicate "center")
        else do
          let (sx, ts) ← needNUMBER "center x" ts
          let (sy, ts) ← needNUMBER "center y" ts
          let ts ← needRIGHT ts
          circleLoop fuel true sawRadius sawWidth sawFill
            { me with center := { x := internal sx, y := internal sy } } ts
      | (.kw .T_radius, ts) =>
        if sawRadius then .error (.duplicate "radius")
        else do
          let (s, ts) ← needNUMBER "radius" ts
          let ts ← needRIGHT ts
          circleLoop fuel sawCenter true sawWidth sawFill { me with radius := internal s } ts
      | _ => .error (.expecting "center|radius|line_width|fill")
    | _ => .error (.expecting "(")

/-- `SWEET_PARSER::parseCircle`. -/
def parseCircle (fuel : Nat) (me : CIRCLE) (ts : List Tok) :
    Except PErr (CIRCLE × List Tok) :=
  circleLoop fuel false false false false me ts

/-- The clause loop of `SWEET_PARSER::parseArc`:
pos / radius / start / end / line_width / fill.  The `default:` branch is
translated verbatim: it reports `"center|radius|line_width|fill"` (the
parseCircle set), not the arc's own legal set. -/
def arcLoop : Nat → Bool → Bool → Bool → Bool → Bool → Bool → ARC → List Tok →
    Except PErr (ARC × List Tok)
  | 0, _, _, _, _, _, _, _, _ => .error .outOfFuel
  | fuel + 1, sawPos, sawStart, sawEnd, sawRadius, sawWidth, sawFill, me, ts =>
    match nextTok ts with
    | (.T_RIGHT, ts) => .ok (me, ts)
    | (.T_LEFT, ts) =>
      match nextTok ts with
      | (.kw .T_line_width, ts) =>
        if sawWidth then .error (.duplicate "line_width")
        else do
          let (s, ts) ← needNUMBER "line_width" ts
          let ts ← needRIGHT ts
          arcLoop fuel sawPos sawStart sawEnd sawRadius true sawFill
            { me with lineWidth := strtodQ s } ts
      | (.kw .T_fill, ts) =>
        if sawFill then .error (.duplicate "fill")
        else do
          let (f, ts) ← parseFill ts
          arcLoop fuel sawPos sawStart sawEnd sawRadius sawWidth true
            { me with fillType := f } ts
      | (.kw .T_pos, ts) =>
        if sawPos then .error (.duplicate "pos")
        else do
          let (sx, ts) ← needNUMBER "pos x" ts
          let (sy, ts) ← needNUMBER "pos y" ts
          let ts ← needRIGHT ts
          arcLoop fuel true sawStart sawEnd sawRadius sawWidth sawFill
            { me with pos := { x := internal sx, y := internal sy } } ts
      | (.kw .T_radius, ts) =>
        if sawRadius then .error (.duplicate "radius")
        else do
          let (s, ts) ← needNUMBER "radius" ts
          let ts ← needRIGHT ts
          arcLoop fuel sawPos sawStart sawEnd true sawWidth sawFill
            { me with radius := internal s } ts
      | (.kw .T_start, ts) =>
        if sawStart then .error (.duplicate "start")
        else do
          let (sx, ts) ← needNUMBER "start x" ts
          let (sy, ts) ← needNUMBER "start y" ts
          let ts ← needRIGHT ts
          arcLoop fuel sawPos true sawEnd sawRadius sawWidth sawFill
            { me with start := { x := internal sx, y := internal sy } } ts
      | (.kw .T_end, ts) =>
        if sawEnd then .error (.duplicate "end")
        else do
          let (sx, ts) ← needNUMBER "end x" ts
          let (sy, ts) ← needNUMBER "end y" ts
          let ts ← needRIGHT ts
          arcLoop fuel sawPos sawStart true sawRadius sawWidth sawFill
            { me with theEnd := { x := internal sx, y := internal sy } } ts
      | _ => .error (.expecting "center|radius|line_width|fill")
    | _ => .error (.expecting "(")

/-- `SWEET_PARSER::parseArc`. -/
def parseArc (fuel : Nat) (me : ARC) (ts : List Tok) :
    Except PErr (ARC × List Tok) :=
  arcLoop fuel false false false false false false me ts

/-- The clause loop of `SWEET_PARSER::parseText`:
at / fill / justify / visible / font. -/
def textLoop : Nat → Bool → Bool → Bool → Bool → Bool → GR_TEXT → List Tok →
    Except PErr (GR_TEXT × List Tok)
  | 0, _, _, _, _, _, _, _ => .error .outOfFuel
  | fuel + 1, sawAt, sawFill, sawFont, sawVis, sawJust, me, ts =>
    match nextTok ts with
    | (.T_RIGHT, ts) => .ok (me, ts)
    | (.T_LEFT, ts) =>
      match nextTok ts with
      | (.kw .T_at, ts) =>
        if sawAt then .error (.duplicate "at")
        else do
          let (pa, ts) ← parseAt ts
          let me := { me with pos := pa.1, angle := pa.2.getD me.angle }
          textLoop fuel true sawFill sawFont sawVis sawJust me ts
      | (.kw .T_fill, ts) =>
        if sawFill then .error (.duplicate "fill")
        else do
          let (f, ts) ← parseFill ts
          textLoop fuel sawAt true sawFont sawVis sawJust { me with fillType := f } ts
      | (.kw .T_justify, ts) =>
        if sawJust then .error (.duplicate "justify")
        else do
          let (h, ts) ← needSYMBOL ts
          match h with
          | .kw .T_center | .kw .T_right | .kw .T_left => do
            let hj := match h with
              | .kw k => k
              | _ => .T_center
            let (v, ts) ← needSYMBOL ts
            match v with
            | .kw .T_center | .kw .T_top | .kw .T_bottom => do
              let vj := match v with
                | .kw k => k
                | _ => .T_center
              let ts ← needRIGHT ts
              textLoop fuel sawAt sawFill sawFont sawVis true
                { me with hjustify := hj, vjustify := vj } ts
            | _ => .error (.expecting "center|top|bottom")
          | _ => .error (.expecting "center|right|left")
      | (.kw .T_visible, ts) =>
        if sawVis then .error (.duplicate "visible")
        else do
          let (b, ts) ← parseBool ts
          let ts ← needRIGHT ts
          textLoop fuel sawAt sawFill sawFont true sawJust { me with isVisible := b } ts
      | (.kw .T_font, ts) =>
        if sawFont then .error (.duplicate "font")
        else do
          let (f, ts) ← parseFont fuel me.font ts
          textLoop fuel sawAt sawFill true sawVis sawJust { me with font := f } ts
      | _ => .error (.expecting "at|justify|font|visible|fill")
    | _ => .error (.expecting "(")

/-- `SWEET_PARSER::parseText`: a mandatory text token then the clause
loop. -/
def parseText (fuel : Nat) (me : GR_TEXT) (ts : List Tok) :
    Except PErr (GR_TEXT × List Tok) := do
  let (t, ts) ← needSYMBOLorNUMBER ts
  textLoop fuel false false false false false { me with text := t.text } ts

/-- The shared body of the five named text-field clauses (reference,
value, footprint, datasheet, model) and of the property clause's tail: a
mandatory symbol-or-number text token, then either the clause's closing
delimiter or a nested `(effects ...)` block followed by the closing
delimiter. -/
def parseFieldText (fuel : Nat) (ts : List Tok) :
    Except PErr (TEXT_FIELD × List Tok) := do
  let (t, ts) ← needSYMBOLorNUMBER ts
  match nextTok ts with
  | (.T_LEFT, ts) =>
    match nextTok ts with
    | (.kw .T_effects, ts) => do
      let (eff, ts) ← parseTextEffects fuel {} ts
      let ts ← needRIGHT ts
      .ok ({ text := t.text, effects := eff }, ts)
    | _ => .error (.expecting "effects")
  | (.T_RIGHT, ts) => .ok ({ text := t.text }, ts)
  | _ => .error (.expecting ") | effects")

/-- The self-reference diagnostic of `parseExtends`. -/
def selfRefMsg : String := "\x27extends\x27 may not have self as any ancestor"

/-- The depth-exceeded diagnostic of `parseExtends`. -/
def depthMsg : String := "max allowed extends depth exceeded"

/-- `SWEET_PARSER::parseExtends`: duplicate check, LPID parse, library
lookup, the bounded cycle/depth walk, then `me->inherit( *base )`,
`me->base = base` and the EXTENDS clauses-seen bit. -/
def parseExtends (env : Env) (meId : Nat) (me : PART) (contains : Nat)
    (ts : List Tok) : Except PErr (PART × Nat × List Tok) :=
  if contains &&& PB .EXTENDS ≠ 0 then .error (.duplicate "extends")
  else do
    let (t, ts) ← needSYMBOLorNUMBER ts
    let me := { me with extendsLpid := some t.text }
    if env.lpidParse t.text > -1 then .error (.parseErr "invalid extends LPID")
    else
      match env.lookupPart t.text with
      | none => .error .lookupFailed
      | some b =>
        match checkExtends env.baseOf meId b with
        | .selfRef => .error (.parseErr selfRefMsg)
        | .depthExceeded => .error (.parseErr depthMsg)
        | .ok =>
          .ok ({ PART.inherit (env.partData b) me with base := some b },
               contains ||| PB .EXTENDS, ts)

/-- The mutable state of one `SWEET_PARSER::Parse` invocation: the part
under construction and the parser's clauses-seen bitset. -/
structure PState where
  me : PART := {}
  contains : Nat := 0
deriving DecidableEq

/-- The `Expecting` description of the top-level clause set
(`SWEET_PARSER::Parse`, `default:` branch). -/
def topLevelClauses : String :=
  "anchor|value|footprint|model|keywords|alternates\n|property\n  |property_del\n|pin\n  |pin_merge|pin_swap|pin_renum|pin_rename|route_pin_swap\n|polyline|line|rectangle|circle|arc|bezier|text"

/-- The `switch( tok )` of `SWEET_PARSER::Parse`'s dispatch loop: one
top-level clause, starting at its (already consumed) keyword token. -/
def dispatchClause (fuel : Nat) (st : PState) (tok : Tok) (ts : List Tok) :
    Except PErr (PState × List Tok) :=
  match tok with
  | .kw .T_anchor =>
    if st.contains &&& PB .ANCHOR ≠ 0 then .error (.duplicate "anchor")
    else do
      let (sx, ts) ← needNUMBER "anchor x" ts
      let (sy, ts) ← needNUMBER "anchor y" ts
      .ok ({ me := { st.me with anchor := { x := internal sx, y := internal sy } },
             contains := st.contains ||| PB .ANCHOR }, ts)
  | .kw .T_line => do
    let (pl, ts) ← parsePolyLine fuel {} ts
    .ok ({ st with me := { st.me with graphics := st.me.graphics ++ [.polyLine pl] } }, ts)
  | .kw .T_polyline => do
    let (pl, ts) ← parsePolyLine fuel {} ts
    .ok ({ st with me := { st.me with graphics := st.me.graphics ++ [.polyLine pl] } }, ts)
  | .kw .T_rectangle => do
    let (r, ts) ← parseRectangle fuel {} ts
    .ok ({ st with me := { st.me with graphics := st.me.graphics ++ [.rectangle r] } }, ts)
  | .kw .T_circle => do
    let (c, ts) ← parseCircle fuel {} ts
    .ok ({ st with me := { st.me with graphics := st.me.graphics ++ [.circle c] } }, ts)
  | .kw .T_arc => do
    let (a, ts) ← parseArc fuel {} ts
    .ok ({ st with me := { st.me with graphics := st.me.graphics ++ [.arc a] } }, ts)
  | .kw .T_bezier => do
    let (b, ts) ← parseBezier fuel {} ts
    .ok ({ st with me := { st.me with graphics := st.me.graphics ++ [.bezier b] } }, ts)
  | .kw .T_text => do
    let (t, ts) ← parseText fuel {} ts
    .ok ({ st with me := { st.me with graphics := st.me.graphics ++ [.text t] } }, ts)
  | .kw .T_reference =>
    if st.contains &&& PB .REFERENCE ≠ 0 then .error (.duplicate "reference")
    else do
      let (f, ts) ← parseFieldText fuel ts
      .ok ({ me := { st.me with reference := f },
             contains := st.contains ||| PB .REFERENCE }, ts)
  | .kw .T_value =>
    if st.contains &&& PB .VALUE ≠ 0 then .error (.duplicate "value")
    else do
      let (f, ts) ← parseFieldText fuel ts
      .ok ({ me := { st.me with value := f },
             contains := st.contains ||| PB .VALUE }, ts)
  | .kw .T_footprint =>
    if st.contains &&& PB .FOOTPRINT ≠ 0 then .error (.duplicate "footprint")
    else do
      let (f, ts) ← parseFieldText fuel ts
      .ok ({ me := { st.me with footprint := f },
             contains := st.contains ||| PB .FOOTPRINT }, ts)
  | .kw .T_datasheet =>
    if st.contains &&& PB .MODEL ≠ 0 then .error (.duplicate "datasheet")
    else do
      let (f, ts) ← parseFieldText fuel ts
      .ok ({ me := { st.me with datasheet := f },
             contains := st.contains ||| PB .MODEL }, ts)
  | .kw .T_model =>
    if st.contains &&& PB .MODEL ≠ 0 then .error (.duplicate "model")
    else do
      let (f, ts) ← parseFieldText fuel ts
      .ok ({ me := { st.me with model := f },
             contains := st.contains ||| PB .MODEL }, ts)
  | .kw .T_property => do
    let (nm, ts) ← needSYMBOLorNUMBER ts
    let (f, ts) ← parseFieldText fuel ts
    let p : PROPERTY := { name := nm.text, text := f.text, effects := f.effects }
    .ok ({ st with me := { st.me with properties := st.me.properties ++ [p] } }, ts)
  | .kw .T_pin => do
    let (p, ts) ← parsePin fuel {} ts
    .ok ({ st with me := { st.me with pins := st.me.pins ++ [p] } }, ts)
  | _ => .error (.expecting topLevelClauses)

/-- The `for( ; tok != T_RIGHT; tok = NextTok() )` dispatch loop of
`SWEET_PARSER::Parse`: EOF is rejected, at most one left delimiter is
skipped before the clause keyword, and the clause is routed through
`dispatchClause`. -/
def partLoop : Nat → PState → Tok → List Tok → Except PErr (PState × List Tok)
  | 0, _, _, _ => .error .outOfFuel
  | fuel + 1, st, tok, ts =>
    if tok = .T_RIGHT then .ok (st, ts)
    else if tok = .T_EOF then .error (.unexpected "EOF")
    else
      let p := if tok = .T_LEFT then nextTok ts else (tok, ts)
      match dispatchClause fuel st p.1 p.2 with
      | .error e => .error e
      | .ok (st, ts) =>
        let n := nextTok ts
        partLoop fuel st n.1 n.2

/-- Loop exit of `Parse`: `contains |= PB(PARSED); me->contains |=
contains;`. -/
def finishPart (st : PState) : PART :=
  { st.me with contains := st.me.contains ||| (st.contains ||| PB .PARSED) }

/-- `SWEET_PARSER::Parse`: clears the part, demands `( part NAME-HINT`,
routes a first-position `extends` clause to `parseExtends`, then runs the
dispatch loop and finally sets the PARSED flag and merges the clauses-seen
bitset into the part. -/
def Parse (env : Env) (meId : Nat) (me : PART) (ts : List Tok) :
    Except PErr (PART × List Tok) := do
  let me := PART.clear me
  let ts ← needLEFT ts
  match nextTok ts with
  | (.kw .T_part, ts) => do
    let (_, ts) ← needSYMBOLorNUMBER ts
    let (tok, ts) := nextTok ts
    if tok = Tok.kw .T_extends then do
      let (me2, c2, ts2) ← parseExtends env meId me 0 ts
      let n := nextTok ts2
      let (st, tsF) ← partLoop (ts2.length + 1) ⟨me2, c2⟩ n.1 n.2
      .ok (finishPart st, tsF)
    else do
      let (st, tsF) ← partLoop (ts.length + 1) ⟨me, 0⟩ tok ts
      .ok (finishPart st, tsF)
  | _ => .error (.expecting "part")

/-- A library environment in which no part reference resolves. -/
def env0 : Env := {}

/-- A library environment where `"B"` resolves to part 1, a base part with
no back-reference chain and reference text `"R1"`. -/
def env1 : Env :=
  { lookupPart := fun s => if s = "B" then some 1 else none,
    partData := fun n => if n = 1 then { reference := { text := "R1" } } else {} }

/-- Back-references forming the acyclic chain 1 → 2 → 3 → 4 → 5 of length 5
starting at part 1. -/
def env5base : Nat → Option Nat :=
  fun n => if 1 ≤ n ∧ n ≤ 4 then some (n + 1) else none

/-- A library environment over `env5base` where `"B"` resolves to part 1. -/
def env5 : Env :=
  { lookupPart := fun s => if s = "B" then some 1 else none, baseOf := env5base }

/-- Back-references forming the chain 1 → 2 → 3 → 4 → 5 → 6 → 0: part 0
occurs in the chain of part 1, but only at depth 6. -/
def env7base : Nat → Option Nat :=
  fun n =>
    if n = 0 then none
    else if n ≤ 5 then some (n + 1)
    else if n = 6 then some 0
    else none

/-- A library environment over `env7base` where `"B"` resolves to part 1. -/
def env7 : Env :=
  { lookupPart := fun s => if s = "B" then some 1 else none, baseOf := env7base }

/-- The token rendering of a sequence of `(xy X Y)` point groups. -/
def xyToks (ps : List (String × String)) : List Tok :=
  (ps.map (fun p => [Tok.T_LEFT, Tok.kw .T_xy, Tok.num p.1, Tok.num p.2, Tok.T_RIGHT])).flatten

/-- The internal-unit point a parsed `(xy X Y)` group denotes. -/
def xyPoint (p : String × String) : POINT :=
  { x := internal p.1, y := internal p.2 }

/-! ## Theorems -/

theorem ratTrunc_eq_floor {q : ℚ} (h : 0 ≤ q) : ratTrunc q = ⌊q⌋ := by
  rw [Rat.floor_def, ratTrunc]
  exact Int.tdiv_eq_ediv (Rat.num_nonneg.mpr h) (Int.natCast_nonneg q.den)

theorem ratTrunc_eq_ceil {q : ℚ} (h : q < 0) : ratTrunc q = ⌈q⌉ := by
  have h1 : 0 ≤ -q := by linarith
  have h2 : ratTrunc q = -(ratTrunc (-q)) := by
    unfold ratTrunc
    rw [Rat.neg_num, Rat.neg_den, Int.neg_tdiv, neg_neg]
  rw [h2, ratTrunc_eq_floor h1]
  rfl

theorem mul_internal_eq_divInt (q : ℚ) :
    q * (INTERNAL_PER_LOGICAL : ℚ) =
      Rat.divInt (q.num * INTERNAL_PER_LOGICAL) (q.den : Int) := by
  conv_lhs => rw [← Rat.divInt_self q, Rat.intCast_eq_divInt]
  rw [Rat.divInt_mul_divInt _ _ (by exact_mod_cast q.den_nz) one_ne_zero, mul_one]

theorem log2int_eq_floor {q : ℚ} (h : 0 ≤ q * (INTERNAL_PER_LOGICAL : ℚ)) :
    log2int q = ⌊q * (INTERNAL_PER_LOGICAL : ℚ)⌋ := by
  have hq : 0 ≤ q := by
    by_contra hc
    push_neg at hc
    have : q * (INTERNAL_PER_LOGICAL : ℚ) < 0 := by
      apply mul_neg_of_neg_of_pos hc
      norm_num [INTERNAL_PER_LOGICAL]
    linarith
  have ha : 0 ≤ q.num * INTERNAL_PER_LOGICAL := by
    apply mul_nonneg (Rat.num_nonneg.mpr hq)
    norm_num [INTERNAL_PER_LOGICAL]
  rw [mul_internal_eq_divInt, Rat.divInt_eq_div, log2int]
  rw [Int.tdiv_eq_ediv ha (Int.natCast_nonneg q.den)]
  exact (Rat.floor_intCast_div_natCast _ _).symm

theorem log2int_neg (q : ℚ) : log2int (-q) = -(log2int q) := by
  unfold log2int
  rw [Rat.neg_num, Rat.neg_den, neg_mul, Int.neg_tdiv]

theorem log2int_eq_ceil {q : ℚ} (h : q * (INTERNAL_PER_LOGICAL : ℚ) < 0) :
    log2int q = ⌈q * (INTERNAL_PER_LOGICAL : ℚ)⌉ := by
  have h1 : 0 ≤ (-q) * (INTERNAL_PER_LOGICAL : ℚ) := by rw [neg_mul]; linarith
  have h2 := log2int_eq_floor h1
  rw [log2int_neg, neg_mul] at h2
  have h3 : log2int q = -⌊-(q * (INTERNAL_PER_LOGICAL : ℚ))⌋ := by
    rw [← h2, neg_neg]
  rw [h3]
  rfl

theorem log2int_eq_ratTrunc (q : ℚ) :
    log2int q = ratTrunc (q * (INTERNAL_PER_LOGICAL : ℚ)) := by
  rcases le_or_lt 0 (q * (INTERNAL_PER_LOGICAL : ℚ)) with h | h
  · rw [log2int_eq_floor h, ratTrunc_eq_floor h]
  · rw [log2int_eq_ceil h, ratTrunc_eq_ceil h]

/-- Claim C2, counterexample: the converter does not round to nearest.  On
the decimal numeral `"0.00048828125"` (exactly `2^-11`, so the C double
arithmetic is exact and the rational model coincides with it), the value
times 10000 is `4.8828125`: the converter returns the truncation 4, while
the claim's `round` specifies 5. -/
theorem unit_conversion_rounds_counterexample :
    internal "0.00048828125" = 4 ∧
    round (strtodQ "0.00048828125" * (INTERNAL_PER_LOGICAL : ℚ)) = 5 ∧
    (4 : ℤ) ≠ 5 := by
  refine ⟨by decide, ?_, by decide⟩
  rw [show strtodQ "0.00048828125" = Rat.divInt 1 2048 from by decide, Rat.divInt_eq_div]
  rw [round_eq]
  norm_num [INTERNAL_PER_LOGICAL]

/-- Claim C2, amended: for every decimal numeral string `s`, the converter
returns the truncation toward zero of `parse_float(s) * 10000` — the floor
for nonnegative values and the ceiling for negative ones — rather than the
nearest integer; `internal` agrees with the literal
`int( strtod(s) * 10000 )` formula `ratTrunc (strtodQ s * 10000)`, and the
claim's three examples, where the product is an exact integer, still hold:
`"1" ↦ 10000`, `"0.5" ↦ 5000`, `"-2.25" ↦ -22500`. -/
theorem unit_conversion_truncates (s : String) :
    internal s = ratTrunc (strtodQ s * (INTERNAL_PER_LOGICAL : ℚ)) ∧
    (0 ≤ strtodQ s * (INTERNAL_PER_LOGICAL : ℚ) →
      internal s = ⌊strtodQ s * (INTERNAL_PER_LOGICAL : ℚ)⌋) ∧
    (strtodQ s * (INTERNAL_PER_LOGICAL : ℚ) < 0 →
      internal s = ⌈strtodQ s * (INTERNAL_PER_LOGICAL : ℚ)⌉) ∧
    internal "1" = 10000 ∧ internal "0.5" = 5000 ∧ internal "-2.25" = -22500 :=
  ⟨log2int_eq_ratTrunc _, fun h => log2int_eq_floor h, fun h => log2int_eq_ceil h,
   by decide, by decide, by decide⟩

/-- Witness for `unit_conversion_truncates` at the inputs `"2.9999"`
(positive, truncated to 29999) and `"-0.00015"` (negative, truncated
toward zero to -1). -/
theorem unit_conversion_truncates_witness :
    internal "2.9999" = ⌊strtodQ "2.9999" * (INTERNAL_PER_LOGICAL : ℚ)⌋ ∧
    internal "-0.00015" = ⌈strtodQ "-0.00015" * (INTERNAL_PER_LOGICAL : ℚ)⌉ :=
  ⟨(unit_conversion_truncates "2.9999").2.1 (by
      rw [show strtodQ "2.9999" = Rat.divInt 29999 10000 from by decide, Rat.divInt_eq_div]
      norm_num [INTERNAL_PER_LOGICAL]),
   (unit_conversion_truncates "-0.00015").2.2.1 (by
      rw [show strtodQ "-0.00015" = Rat.divInt (-15) 100000 from by decide, Rat.divInt_eq_div]
      norm_num [INTERNAL_PER_LOGICAL])⟩

theorem extendsWalk_selfRef (baseOf : Nat → Option Nat) (me : Nat) :
    ∀ (fuel : Nat) (ob : Option Nat), me ∈ chainList baseOf fuel ob →
      extendsWalk baseOf me fuel ob = .selfRef
  | 0, ob, h => absurd h (by simp [chainList])
  | fuel + 1, none, h => absurd h (by simp [chainList])
  | fuel + 1, some a, h => by
    simp only [chainList, List.mem_cons] at h
    by_cases ha : a = me
    · simp [extendsWalk, ha]
    · have hm : me ∈ chainList baseOf fuel (baseOf a) := by
        rcases h with h | h
        · exact absurd h.symm ha
        · exact h
      simp [extendsWalk, ha, extendsWalk_selfRef baseOf me fuel (baseOf a) hm]

theorem extendsWalk_depth (baseOf : Nat → Option Nat) (me : Nat) :
    ∀ (fuel : Nat) (ob : Option Nat),
      (chainList baseOf fuel ob).length = fuel → me ∉ chainList baseOf fuel ob →
      extendsWalk baseOf me fuel ob = .depthExceeded
  | 0, _, _, _ => by simp [extendsWalk]
  | fuel + 1, none, h, _ => by simp [chainList] at h
  | fuel + 1, some a, h, hn => by
    simp only [chainList, List.length_cons, Nat.add_right_cancel_iff] at h
    simp only [chainList, List.mem_cons] at hn
    push_neg at hn
    simp [extendsWalk, Ne.symm hn.1, extendsWalk_depth baseOf me fuel (baseOf a) h hn.2]

theorem extendsWalk_ok (baseOf : Nat → Option Nat) (me : Nat) :
    ∀ (fuel : Nat) (ob : Option Nat),
      (chainList baseOf fuel ob).length < fuel → me ∉ chainList baseOf fuel ob →
      extendsWalk baseOf me fuel ob = .ok
  | 0, _, h, _ => absurd h (by simp)
  | fuel + 1, none, _, _ => by simp [extendsWalk]
  | fuel + 1, some a, h, hn => by
    simp only [chainList, List.length_cons] at h
    have h2 : (chainList baseOf fuel (baseOf a)).length < fuel := by omega
    simp only [chainList, List.mem_cons] at hn
    push_neg at hn
    simp [extendsWalk, Ne.symm hn.1, extendsWalk_ok baseOf me fuel (baseOf a) h2 hn.2]

/-- Claim C1, counterexample: the claim "for every extends clause whose
resolved base's back-reference chain contains the part under construction,
parseExtends raises a SelfReferenceError" fails when the part first occurs
at depth `MAX_INHERITANCE_NESTING` (6) or beyond.  In `env7` the chain of
the resolved base 1 is `1,2,3,4,5,6,0`, so part 0 is in it, yet
`parseExtends` for part 0 raises the depth-exceeded error, not the
self-reference error. -/
theorem extends_selfref_beyond_depth_counterexample :
    (0 ∈ chainList env7base 7 (some 1)) ∧
    parseExtends env7 0 {} 0 [Tok.sym "B"] = .error (.parseErr depthMsg) ∧
    PErr.parseErr depthMsg ≠ PErr.parseErr selfRefMsg :=
  ⟨by decide, by decide, by decide⟩

/-- Claim C1, amended: the cycle/depth safety of `parseExtends`, with
self-reference detection restricted — as the code implements it — to the
first `MAX_INHERITANCE_NESTING` (6) entries of the resolved base's
back-reference chain.  If the part under construction occurs among those
first 6 ancestors, the walk reports self-reference; if the first 6 entries
are all present (every chain of length ≥ 6, in particular one of length 7)
and the part is not among them, it reports depth-exceeded; if the chain
ends within fewer than 6 entries (e.g. an acyclic chain of length 5) and
the part is not in it, the check succeeds.  `parseExtends` then raises the
corresponding parse error, or on success inherits the base's fields into
the part, records the back-reference and sets the EXTENDS bit. -/
theorem extends_cycle_depth_safety (baseOf : Nat → Option Nat) (me b : Nat) :
    (me ∈ chainList baseOf MAX_INHERITANCE_NESTING (some b) →
       checkExtends baseOf me b = .selfRef) ∧
    ((chainList baseOf MAX_INHERITANCE_NESTING (some b)).length = MAX_INHERITANCE_NESTING →
       me ∉ chainList baseOf MAX_INHERITANCE_NESTING (some b) →
       checkExtends baseOf me b = .depthExceeded) ∧
    ((chainList baseOf MAX_INHERITANCE_NESTING (some b)).length < MAX_INHERITANCE_NESTING →
       me ∉ chainList baseOf MAX_INHERITANCE_NESTING (some b) →
       checkExtends baseOf me b = .ok) ∧
    (∀ (env : Env) (mePart : PART) (contains : Nat) (s : String) (ts : List Tok),
       env.baseOf = baseOf → contains &&& PB .EXTENDS = 0 → env.lpidParse s = -1 →
       env.lookupPart s = some b →
       ((checkExtends baseOf me b = .selfRef →
           parseExtends env me mePart contains (Tok.sym s :: ts) =
             .error (.parseErr selfRefMsg)) ∧
        (checkExtends baseOf me b = .depthExceeded →
           parseExtends env me mePart contains (Tok.sym s :: ts) =
             .error (.parseErr depthMsg)) ∧
        (checkExtends baseOf me b = .ok →
           parseExtends env me mePart contains (Tok.sym s :: ts) =
             .ok ({ PART.inherit (env.partData b)
                      { mePart with extendsLpid := some s } with base := some b },
                  contains ||| PB .EXTENDS, ts)))) := by
  refine ⟨extendsWalk_selfRef baseOf me _ _, extendsWalk_depth baseOf me _ _,
          extendsWalk_ok baseOf me _ _, ?_⟩
  intro env mePart contains s ts hb hEx hlp hlk
  subst hb
  refine ⟨?_, ?_, ?_⟩ <;> intro hchk <;>
    simp [parseExtends, hEx, needSYMBOLorNUMBER, nextTok, Tok.isSymbol, Tok.text,
          hlp, hlk, hchk, bind, Except.bind]

/-- Witness for `extends_cycle_depth_safety`: in `env5` the resolved base's
chain is acyclic of length 5, so the walk succeeds and `parseExtends`
inherits the base part's fields. -/
theorem extends_cycle_depth_safety_witness :
    checkExtends env5base 0 1 = .ok ∧
    parseExtends env5 0 {} 0 [Tok.sym "B"] =
      .ok ({ PART.inherit (env5.partData 1) { ({} : PART) with extendsLpid := some "B" } with
               base := some 1 }, 0 ||| PB .EXTENDS, []) := by
  have h := extends_cycle_depth_safety env5base 0 1
  have hok : checkExtends env5base 0 1 = .ok := h.2.2.1 (by decide) (by decide)
  exact ⟨hok, (h.2.2.2 env5 {} 0 "B" [] rfl (by decide) (by decide) (by decide)).2.2 hok⟩

/-- Claim C3: the extends clause is accepted exactly in first position.  An
`extends` keyword reaching the dispatch loop — bare or after a left
delimiter, i.e. after any other clause — raises the "expecting
anchor|value|..." grammar error enumerating the top-level clause set;
`Parse` on a stream whose first clause after the name hint is `extends`
routes it to `parseExtends` and continues the loop on the remaining
clauses, as the concrete run with a following `value` clause shows. -/
theorem extends_first_clause_only :
    (∀ (fuel : Nat) (st : PState) (ts : List Tok),
       partLoop (fuel + 1) st (Tok.kw .T_extends) ts = .error (.expecting topLevelClauses)) ∧
    (∀ (fuel : Nat) (st : PState) (ts : List Tok),
       partLoop (fuel + 1) st Tok.T_LEFT (Tok.kw .T_extends :: ts) =
         .error (.expecting topLevelClauses)) ∧
    (∀ (env : Env) (meId : Nat) (me : PART) (nm : String) (rest : List Tok),
       Parse env meId me
           (Tok.T_LEFT :: Tok.kw .T_part :: Tok.sym nm :: Tok.kw .T_extends :: rest) =
         match parseExtends env meId {} 0 rest with
         | .error e => .error e
         | .ok (me2, c2, ts2) =>
           match partLoop (ts2.length + 1) ⟨me2, c2⟩ (nextTok ts2).1 (nextTok ts2).2 with
           | .error e => .error e
           | .ok (st, tsF) => .ok (finishPart st, tsF)) ∧
    Parse env1 0 {} [Tok.T_LEFT, Tok.kw .T_part, Tok.sym "N", Tok.kw .T_extends, Tok.sym "B",
                     Tok.T_LEFT, Tok.kw .T_value, Tok.sym "V", Tok.T_RIGHT, Tok.T_RIGHT] =
      .ok ({ reference := { text := "R1" }, value := { text := "V" },
             extendsLpid := some "B", base := some 1,
             contains := PB .EXTENDS ||| PB .VALUE ||| PB .PARSED }, []) := by
  refine ⟨fun _ _ _ => rfl, fun _ _ _ => rfl, ?_, by decide⟩
  intro env meId me nm rest
  unfold Parse
  simp [bind, Except.bind, needLEFT, nextTok, needSYMBOLorNUMBER, Tok.isSymbol,
        PART.clear]
  cases h : parseExtends env meId ({} : PART) 0 rest with
  | error e => rfl
  | ok r =>
      obtain ⟨me2, c2, ts2⟩ := r
      simp only []
      cases h2 : partLoop (ts2.length + 1) { me := me2, contains := c2 }
          (nextTok ts2).1 (nextTok ts2).2 with
      | error e => simp only [nextTok] at h2 ⊢; rw [h2]
      | ok s =>
          obtain ⟨st, tsF⟩ := s
          simp only [nextTok] at h2 ⊢
          rw [h2]


theorem or_and_eq_self (a b : Nat) : (a ||| b) &&& b = b := by
  apply Nat.eq_of_testBit_eq
  intro i
  simp only [Nat.testBit_and, Nat.testBit_or]
  cases h : b.testBit i <;> simp [h]

theorem finishPart_parsed (st : PState) : (finishPart st).contains &&& PB .PARSED ≠ 0 := by
  show (st.me.contains ||| (st.contains ||| PB .PARSED)) &&& PB .PARSED ≠ 0
  rw [← Nat.or_assoc, or_and_eq_self]
  decide

/-- Claim C4: re-parse idempotence.  `Parse` calls `me->clear()` before
repopulating, so its outcome does not depend on the incoming part object:
parsing the same token stream into any two part objects (in particular the
same one twice) yields identical results, and every successfully returned
part has the PARSED flag set by the final
`contains |= PB(PARSED); me->contains |= contains`. -/
theorem reparse_idempotent (env : Env) (meId : Nat) (me me2 : PART) (ts : List Tok) :
    Parse env meId me ts = Parse env meId me2 ts ∧
    (∀ (p : PART) (rest : List Tok), Parse env meId me ts = .ok (p, rest) →
       p.contains &&& PB .PARSED ≠ 0) := by
  constructor
  · rfl
  · intro p rest h
    unfold Parse at h
    simp only [bind, Except.bind, PART.clear] at h
    repeat' split at h
    all_goals first
      | exact Except.noConfusion h
      | (simp only [Except.ok.injEq, Prod.mk.injEq] at h
         exact h.1 ▸ finishPart_parsed _)

/-- Witness for `reparse_idempotent`: a concrete one-clause stream parsed
into an empty part and into a part holding stale fields gives the same
result, whose `contains` holds the PARSED bit. -/
theorem reparse_idempotent_witness :
    Parse env0 0 ({} : PART) [Tok.T_LEFT, Tok.kw .T_part, Tok.sym "N", Tok.T_RIGHT] =
      Parse env0 0 ({ contains := 77, value := { text := "stale" } } : PART)
        [Tok.T_LEFT, Tok.kw .T_part, Tok.sym "N", Tok.T_RIGHT] ∧
    ({ contains := 1 } : PART).contains &&& PB .PARSED ≠ 0 := by
  have h := reparse_idempotent env0 0 {} { contains := 77, value := { text := "stale" } }
      [Tok.T_LEFT, Tok.kw .T_part, Tok.sym "N", Tok.T_RIGHT]
  exact ⟨h.1, h.2 { contains := 1 } [] (by decide)⟩

/-- Claim C5: the anchor handler consumes exactly the two numeric tokens
and no closing delimiter, so for a parenthesized `(anchor X Y)` the
dispatch loop reads the anchor's own `)` as the end of the part body:
generally, the loop on `( anchor X Y ) rest` succeeds leaving `rest`
unconsumed, and concretely `Parse` on a part whose `(anchor 1 2)` is
followed by a value clause returns success, PARSED flag set, with the
entire value clause and the outer `)` still on the stream. -/
theorem anchor_consumes_no_delimiter (fuel : Nat) (st : PState) (sx sy : String) (rest : List Tok)
    (h : st.contains &&& PB .ANCHOR = 0) :
    partLoop (fuel + 2) st Tok.T_LEFT
        (Tok.kw .T_anchor :: Tok.num sx :: Tok.num sy :: Tok.T_RIGHT :: rest) =
      .ok ({ me := { st.me with anchor := { x := internal sx, y := internal sy } },
             contains := st.contains ||| PB .ANCHOR }, rest) ∧
    Parse env0 0 {} [Tok.T_LEFT, Tok.kw .T_part, Tok.sym "N",
        Tok.T_LEFT, Tok.kw .T_anchor, Tok.num "1", Tok.num "2", Tok.T_RIGHT,
        Tok.T_LEFT, Tok.kw .T_value, Tok.sym "V", Tok.T_RIGHT, Tok.T_RIGHT] =
      .ok ({ anchor := { x := 10000, y := 20000 }, contains := PB .ANCHOR ||| PB .PARSED },
           [Tok.T_LEFT, Tok.kw .T_value, Tok.sym "V", Tok.T_RIGHT, Tok.T_RIGHT]) := by
  constructor
  · simp [partLoop, nextTok, dispatchClause, needNUMBER, h, bind, Except.bind]
  · decide

/-- Claim C6: datasheet and model share one at-most-once slot (both use
the MODEL clauses-seen bit): once the bit is set, a datasheet or model
keyword raises the duplicate-clause error; concretely, two datasheets,
two models, datasheet-then-model and model-then-datasheet all fail with
DuplicateClauseError, while a single occurrence of either succeeds. -/
theorem datasheet_model_single_slot :
    (∀ (fuel : Nat) (st : PState) (ts : List Tok), st.contains &&& PB .MODEL ≠ 0 →
       dispatchClause fuel st (Tok.kw .T_datasheet) ts = .error (.duplicate "datasheet")) ∧
    (∀ (fuel : Nat) (st : PState) (ts : List Tok), st.contains &&& PB .MODEL ≠ 0 →
       dispatchClause fuel st (Tok.kw .T_model) ts = .error (.duplicate "model")) ∧
    Parse env0 0 {} [Tok.T_LEFT, Tok.kw .T_part, Tok.sym "N",
        Tok.T_LEFT, Tok.kw .T_datasheet, Tok.sym "D", Tok.T_RIGHT,
        Tok.T_LEFT, Tok.kw .T_datasheet, Tok.sym "D2", Tok.T_RIGHT, Tok.T_RIGHT] =
      .error (.duplicate "datasheet") ∧
    Parse env0 0 {} [Tok.T_LEFT, Tok.kw .T_part, Tok.sym "N",
        Tok.T_LEFT, Tok.kw .T_model, Tok.sym "M", Tok.T_RIGHT,
        Tok.T_LEFT, Tok.kw .T_model, Tok.sym "M2", Tok.T_RIGHT, Tok.T_RIGHT] =
      .error (.duplicate "model") ∧
    Parse env0 0 {} [Tok.T_LEFT, Tok.kw .T_part, Tok.sym "N",
        Tok.T_LEFT, Tok.kw .T_datasheet, Tok.sym "D", Tok.T_RIGHT,
        Tok.T_LEFT, Tok.kw .T_model, Tok.sym "M", Tok.T_RIGHT, Tok.T_RIGHT] =
      .error (.duplicate "model") ∧
    Parse env0 0 {} [Tok.T_LEFT, Tok.kw .T_part, Tok.sym "N",
        Tok.T_LEFT, Tok.kw .T_model, Tok.sym "M", Tok.T_RIGHT,
        Tok.T_LEFT, Tok.kw .T_datasheet, Tok.sym "D", Tok.T_RIGHT, Tok.T_RIGHT] =
      .error (.duplicate "datasheet") ∧
    Parse env0 0 {} [Tok.T_LEFT, Tok.kw .T_part, Tok.sym "N",
        Tok.T_LEFT, Tok.kw .T_datasheet, Tok.sym "D", Tok.T_RIGHT, Tok.T_RIGHT] =
      .ok ({ datasheet := { text := "D" }, contains := PB .MODEL ||| PB .PARSED }, []) ∧
    Parse env0 0 {} [Tok.T_LEFT, Tok.kw .T_part, Tok.sym "N",
        Tok.T_LEFT, Tok.kw .T_model, Tok.sym "M", Tok.T_RIGHT, Tok.T_RIGHT] =
      .ok ({ model := { text := "M" }, contains := PB .MODEL ||| PB .PARSED }, []) := by
  refine ⟨?_, ?_, by decide, by decide, by decide, by decide, by decide, by decide⟩
  · intro fuel st ts h
    simp [dispatchClause, h]
  · intro fuel st ts h
    simp [dispatchClause, h]

/-- Claim C9: at the top level the left delimiter before a clause keyword
is optional — the dispatch loop skips at most one `(` and dispatches the
following token through `dispatchClause` exactly as it does a bare clause
keyword; concretely, `anchor 1 2` bare and `(anchor 1 2` parenthesized are
handled identically. -/
theorem optional_left_delimiter :
    (∀ (fuel : Nat) (st : PState) (tok : Tok) (ts : List Tok),
       partLoop (fuel + 1) st Tok.T_LEFT (tok :: ts) =
         match dispatchClause fuel st tok ts with
         | .error e => .error e
         | .ok (st2, ts2) => partLoop fuel st2 (nextTok ts2).1 (nextTok ts2).2) ∧
    (∀ (fuel : Nat) (st : PState) (k : Kw) (ts : List Tok),
       partLoop (fuel + 1) st (Tok.kw k) ts =
         match dispatchClause fuel st (Tok.kw k) ts with
         | .error e => .error e
         | .ok (st2, ts2) => partLoop fuel st2 (nextTok ts2).1 (nextTok ts2).2) ∧
    Parse env0 0 {} [Tok.T_LEFT, Tok.kw .T_part, Tok.sym "N",
        Tok.kw .T_anchor, Tok.num "1", Tok.num "2", Tok.T_RIGHT] =
      .ok ({ anchor := { x := 10000, y := 20000 }, contains := PB .ANCHOR ||| PB .PARSED }, []) ∧
    Parse env0 0 {} [Tok.T_LEFT, Tok.kw .T_part, Tok.sym "N",
        Tok.T_LEFT, Tok.kw .T_anchor, Tok.num "1", Tok.num "2", Tok.T_RIGHT] =
      .ok ({ anchor := { x := 10000, y := 20000 }, contains := PB .ANCHOR ||| PB .PARSED }, []) := by
  refine ⟨?_, ?_, by decide, by decide⟩
  · intro fuel st tok ts
    simp only [partLoop, nextTok]
    cases h : dispatchClause fuel st tok ts with
    | error e => simp [h]
    | ok r =>
        obtain ⟨st2, ts2⟩ := r
        simp [h, nextTok]
  · intro fuel st k ts
    simp only [partLoop, nextTok]
    cases h : dispatchClause fuel st (Tok.kw k) ts with
    | error e => simp [h]
    | ok r =>
        obtain ⟨st2, ts2⟩ := r
        simp [h, nextTok]

/-- Witness for `anchor_consumes_no_delimiter` at a concrete state and
stream. -/
theorem anchor_consumes_no_delimiter_witness :
    partLoop 2 ({} : PState) Tok.T_LEFT
        [Tok.kw .T_anchor, Tok.num "1", Tok.num "2", Tok.T_RIGHT, Tok.T_RIGHT] =
      .ok ({ me := { ({} : PState).me with anchor := { x := internal "1", y := internal "2" } },
             contains := ({} : PState).contains ||| PB .ANCHOR }, [Tok.T_RIGHT]) :=
  (anchor_consumes_no_delimiter 0 {} "1" "2" [Tok.T_RIGHT] (by decide)).1

/-- Witness for `datasheet_model_single_slot`: with the MODEL bit already
set, both keywords raise the duplicate error. -/
theorem datasheet_model_single_slot_witness :
    dispatchClause 1 ({ contains := PB .MODEL } : PState) (Tok.kw .T_datasheet) [] =
      .error (.duplicate "datasheet") ∧
    dispatchClause 1 ({ contains := PB .MODEL } : PState) (Tok.kw .T_model) [] =
      .error (.duplicate "model") :=
  ⟨datasheet_model_single_slot.1 1 { contains := PB .MODEL } [] (by decide),
   datasheet_model_single_slot.2.1 1 { contains := PB .MODEL } [] (by decide)⟩

/-- Claim C7, amended: a pin body's bare tokens are drawn from the fixed
eleven-value electrical-type enumeration and the fixed nine-value shape
enumeration; a second token from either enumeration raises the
duplicate-clause error, a bare keyword in neither enumeration and a bare
symbol both raise the Unexpected grammar error, and a pin with exactly one
token of each kind parses into that type and shape.  Presence is not
enforced: a pin body may close without either flag token and still parses
successfully (see the counterexample). -/
theorem pin_flag_tokens :
    (∀ (fuel : Nat) (sw : PINSAW) (me : PIN) (k : Kw) (ts : List Tok),
       k ∈ elecTypes → sw.sawType = true →
       pinLoop (fuel + 1) sw me (Tok.kw k :: ts) = .error (.duplicate k.str)) ∧
    (∀ (fuel : Nat) (sw : PINSAW) (me : PIN) (k : Kw) (ts : List Tok),
       k ∈ pinShapes → sw.sawShape = true →
       pinLoop (fuel + 1) sw me (Tok.kw k :: ts) = .error (.duplicate k.str)) ∧
    (∀ (fuel : Nat) (sw : PINSAW) (me : PIN) (k : Kw) (ts : List Tok),
       k ∉ elecTypes → k ∉ pinShapes →
       pinLoop (fuel + 1) sw me (Tok.kw k :: ts) = .error (.unexpected k.str)) ∧
    (∀ (fuel : Nat) (sw : PINSAW) (me : PIN) (s : String) (ts : List Tok),
       pinLoop (fuel + 1) sw me (Tok.sym s :: ts) = .error (.unexpected s)) ∧
    parsePin 5 {} [Tok.kw .T_input, Tok.kw .T_line, Tok.T_RIGHT] =
      .ok ({ connectionType := some .T_input, shape := some .T_line }, []) ∧
    (∀ (fuel : Nat) (sw : PINSAW) (me : PIN) (ts : List Tok),
       pinLoop (fuel + 1) sw me (Tok.T_RIGHT :: ts) = .ok (me, ts)) ∧
    elecTypes.length = 11 ∧ pinShapes.length = 9 := by
  refine ⟨?_, ?_, ?_, fun _ _ _ _ _ => rfl, by decide, fun _ _ _ _ => rfl, rfl, rfl⟩
  · intro fuel sw me k ts hk hsaw
    fin_cases hk <;> simp [pinLoop, nextTok, elecTypes, pinShapes, hsaw]
  · intro fuel sw me k ts hk hsaw
    fin_cases hk <;> simp [pinLoop, nextTok, elecTypes, pinShapes, hsaw]
  · intro fuel sw me k ts h1 h2
    simp [pinLoop, nextTok, h1, h2]

/-- Claim C7, counterexample: the claim that "a pin clause that closes
without one token of each kind does not parse successfully" is false —
`parsePin` performs no completeness check at its closing delimiter, so
`(pin)` parses successfully into a pin with neither electrical type nor
shape set, and the whole part parse succeeds. -/
theorem pin_without_flags_counterexample :
    Parse env0 0 {} [Tok.T_LEFT, Tok.kw .T_part, Tok.sym "N",
        Tok.T_LEFT, Tok.kw .T_pin, Tok.T_RIGHT, Tok.T_RIGHT] =
      .ok ({ pins := [{}], contains := PB .PARSED }, []) ∧
    ({} : PIN).connectionType = none ∧ ({} : PIN).shape = none :=
  ⟨by decide, rfl, rfl⟩

/-- Witness for `pin_flag_tokens` at concrete flag states and tokens. -/
theorem pin_flag_tokens_witness :
    pinLoop 1 { sawType := true } {} [Tok.kw .T_input] = .error (.duplicate "input") ∧
    pinLoop 1 { sawShape := true } {} [Tok.kw .T_clock] = .error (.duplicate "clock") ∧
    pinLoop 1 {} {} [Tok.kw .T_part] = .error (.unexpected "part") :=
  ⟨pin_flag_tokens.1 0 { sawType := true } {} .T_input [] (by decide) rfl,
   pin_flag_tokens.2.1 0 { sawShape := true } {} .T_clock [] (by decide) rfl,
   pin_flag_tokens.2.2.1 0 {} {} .T_part [] (by decide) (by decide)⟩

theorem parseXYs_spec :
    ∀ (ps : List (String × String)) (fuel : Nat) (acc : List POINT) (c : Nat) (rest : List Tok),
      ps.length + 1 ≤ fuel →
      parseXYs fuel acc c (xyToks ps ++ Tok.T_RIGHT :: rest) =
        .ok (acc ++ ps.map xyPoint, c + ps.length, rest)
  | [], fuel, acc, c, rest, h => by
    obtain ⟨f, rfl⟩ : ∃ f, fuel = f + 1 := ⟨fuel - 1, by omega⟩
    simp [xyToks, parseXYs, nextTok]
  | (x, y) :: ps, fuel, acc, c, rest, h => by
    obtain ⟨f, rfl⟩ : ∃ f, fuel = f + 1 := ⟨fuel - 1, by omega⟩
    have ih := parseXYs_spec ps f (acc ++ [xyPoint (x, y)]) (c + 1) rest
      (by simp at h; omega)
    simp only [xyToks, List.map_cons, List.flatten_cons, List.cons_append] at ih ⊢
    simp only [xyPoint] at ih
    simp [parseXYs, nextTok, needSYMBOL, Tok.isSymbol, needNUMBER, needRIGHT,
          bind, Except.bind]
    rw [ih]
    have h1 : acc ++ [({ x := internal x, y := internal y } : POINT)] ++ List.map xyPoint ps =
        acc ++ ({ x := internal x, y := internal y } : POINT) :: List.map xyPoint ps := by simp
    have h2 : c + 1 + ps.length = c + (ps.length + 1) := by omega
    rw [h1, h2]
    rfl

/-- Claim C8: polyline minimum points.  A line/polyline whose `pts` clause
holds exactly one `(xy X Y)` point raises the grammar error naming
">= 2 pts"; for every point list of length at least two, the parse
succeeds and the resulting point sequence is exactly the input sequence,
unit-converted, in input order; `parseBezier` is literally
`parsePolyLine`, so beziers share the same grammar. -/
theorem polyline_min_points :
    parsePolyLine 9 {} [Tok.T_LEFT, Tok.kw .T_pts, Tok.T_LEFT, Tok.kw .T_xy,
        Tok.num "1", Tok.num "2", Tok.T_RIGHT, Tok.T_RIGHT, Tok.T_RIGHT] =
      .error (.expecting ">= 2 pts") ∧
    (∀ (n : Nat) (ps : List (String × String)) (rest : List Tok),
       2 ≤ ps.length → ps.length + 1 ≤ n →
       parsePolyLine (n + 1) {}
           (Tok.T_LEFT :: Tok.kw .T_pts ::
             (xyToks ps ++ Tok.T_RIGHT :: Tok.T_RIGHT :: rest)) =
         .ok ({ pts := ps.map xyPoint }, rest)) ∧
    (∀ (fuel : Nat) (me : POLY_LINE) (ts : List Tok),
       parseBezier fuel me ts = parsePolyLine fuel me ts) := by
  refine ⟨by decide, ?_, fun _ _ _ => rfl⟩
  intro n ps rest h2 hn
  obtain ⟨m, rfl⟩ : ∃ m, n = m + 1 := ⟨n - 1, by omega⟩
  have hx := parseXYs_spec ps (m + 1) (({} : POLY_LINE).pts) 0 (Tok.T_RIGHT :: rest) (by omega)
  simp only [List.nil_append] at hx
  simp [parsePolyLine, polyLoop, nextTok, bind, Except.bind, hx]
  exact h2

/-- Witness for `polyline_min_points` at the two-point list
`[(1,2), (3,4)]`. -/
theorem polyline_min_points_witness :
    parsePolyLine 4 {}
        (Tok.T_LEFT :: Tok.kw .T_pts ::
          (xyToks [("1", "2"), ("3", "4")] ++ Tok.T_RIGHT :: Tok.T_RIGHT :: [])) =
      .ok ({ pts := [("1", "2"), ("3", "4")].map xyPoint }, []) :=
  polyline_min_points.2.1 3 [("1", "2"), ("3", "4")] [] (by decide) (by decide)

/-- Claim C10: the arc parser accepts exactly
{pos, radius, start, end, line_width, fill}, but its catch-all grammar
error reports the expected set as "center|radius|line_width|fill" — the
parseCircle set, contradicting the arc grammar documented in the
function's own comment: `center` is reported as expected yet rejected
(first conjunct), while `pos` is accepted yet unreported (second
conjunct). -/
theorem arc_expected_set_copypaste :
    parseArc 5 {} [Tok.T_LEFT, Tok.kw .T_center, Tok.num "0", Tok.num "0",
        Tok.T_RIGHT, Tok.T_RIGHT] =
      .error (.expecting "center|radius|line_width|fill") ∧
    parseArc 5 {} [Tok.T_LEFT, Tok.kw .T_pos, Tok.num "1", Tok.num "2",
        Tok.T_RIGHT, Tok.T_RIGHT] =
      .ok ({ pos := { x := internal "1", y := internal "2" } }, []) ∧
    "center|radius|line_width|fill" ≠ "pos|radius|start|end|line_width|fill" :=
  ⟨by decide, by decide, by decide⟩
